import Mathlib

/-!
Verification of the decision/paper-trading engine of the RLdC_AiNalyzator
repository, shallowly embedded in Lean 4.

Modelling conventions:
* Python floats are embedded as exact rationals (`ℚ`); decimal literals such
  as `0.001` or `1e-9` denote the exact decimal value.  Floating-point
  rounding is abstracted away; the spec itself reasons in real arithmetic.
* Python dictionaries (`positions`, `current_prices`) are embedded as
  association lists; `get` reads the first matching key with default `0`,
  `set` replaces the value in place (or appends a fresh key at the end, as
  CPython dicts do), `erase` removes the entry, mirroring `del`.
* A Python method that mutates `self` and may raise becomes a function
  returning the post-state paired with `Option` of the raised error; the
  state component of a raising call is the state at the moment of the raise.
  In `portfolio.py` every `raise` happens before any field assignment, so
  each error branch below pairs the error with the unchanged entry state —
  this is visible in the definitions and can be checked against the source
  line by line.
* Exception *messages* (Python f-strings) are elided; only the exception
  class is modelled.
-/

namespace RLdC

/-- Association-list embedding of the Python `Dict[str, float]` used for
`positions` and `current_prices`. -/
abbrev Positions := List (String × ℚ)

abbrev Prices := Positions

/-- `d.get(key, 0.0)`: first binding of the key, defaulting to `0`. -/
def Positions.get : Positions → String → ℚ
  | [], _ => 0
  | (k, w) :: ps, s => if k = s then w else Positions.get ps s

/-- `d[key] = v`: replace the first binding in place, or append a new entry
at the end (CPython dict insertion order). -/
def Positions.set : Positions → String → ℚ → Positions
  | [], s, v => [(s, v)]
  | (k, w) :: ps, s, v =>
      if k = s then (k, v) :: ps else (k, w) :: Positions.set ps s v

/-- `del d[key]`: remove the first binding of the key. -/
def Positions.erase : Positions → String → Positions
  | [], _ => []
  | (k, w) :: ps, s => if k = s then ps else (k, w) :: Positions.erase ps s

/-- Valuation of the holdings: `Σ amount · current_prices.get(symbol, 0.0)`,
the summation inside `PortfolioManager.get_total_value`. -/
def Positions.value : Positions → Prices → ℚ
  | [], _ => 0
  | (k, w) :: ps, pr => w * Positions.get pr k + Positions.value ps pr

/-- Errors raised by `portfolio.py`; messages are elided. -/
inductive PMError where
  | valueError
  | insufficientFunds
  | insufficientHoldings
  deriving DecidableEq, Repr

/-- `Transaction` dataclass (`transaction.py`).  `side` is a plain string,
as in the source (the `Literal` annotation is not enforced at runtime), and
`total_cost` is an independent field supplied by the caller, not derived
from `price`, `amount` and `fee`. -/
structure Transaction where
  id : String
  timestamp : Nat
  symbol : String
  side : String
  amount : ℚ
  price : ℚ
  fee : ℚ
  total_cost : ℚ
  deriving DecidableEq, Repr

/-- State of `PortfolioManager`: cash balance and per-symbol positions. -/
structure PortfolioManager where
  cash_balance : ℚ
  positions : Positions
  deriving DecidableEq, Repr

namespace PortfolioManager

/-- `PortfolioManager.__init__(initial_cash)`: no validation is performed on
the starting balance. -/
def init (initial_cash : ℚ) : PortfolioManager :=
  { cash_balance := initial_cash, positions := [] }

/-- `PortfolioManager.deposit`. -/
def deposit (p : PortfolioManager) (amount : ℚ) :
    PortfolioManager × Option PMError :=
  if amount ≤ 0 then (p, some .valueError)
  else ({ p with cash_balance := p.cash_balance + amount }, none)

/-- `PortfolioManager.withdraw`. -/
def withdraw (p : PortfolioManager) (amount : ℚ) :
    PortfolioManager × Option PMError :=
  if amount ≤ 0 then (p, some .valueError)
  else if p.cash_balance < amount then (p, some .insufficientFunds)
  else ({ p with cash_balance := p.cash_balance - amount }, none)

/-- `PortfolioManager.execute_trade`.  Validation happens first, then the
side dispatch; every raise precedes any state mutation, so error results
carry the entry state unchanged. -/
def execute_trade (p : PortfolioManager) (tx : Transaction) :
    PortfolioManager × Option PMError :=
  if tx.amount ≤ 0 then (p, some .valueError)
  else if tx.price ≤ 0 then (p, some .valueError)
  else if tx.fee < 0 then (p, some .valueError)
  else if tx.side = "buy" then
    if p.cash_balance < tx.total_cost then (p, some .insufficientFunds)
    else
      let current_position := p.positions.get tx.symbol
      ({ p with
          cash_balance := p.cash_balance - tx.total_cost,
          positions := p.positions.set tx.symbol (current_position + tx.amount) },
        none)
  else if tx.side = "sell" then
    let current_position := p.positions.get tx.symbol
    if current_position < tx.amount then (p, some .insufficientHoldings)
    else
      let afterSet := p.positions.set tx.symbol (current_position - tx.amount)
      let afterDel :=
        if |afterSet.get tx.symbol| < 1e-9 then afterSet.erase tx.symbol
        else afterSet
      ({ p with
          positions := afterDel,
          cash_balance := p.cash_balance + tx.total_cost },
        none)
  else (p, some .valueError)

/-- `PortfolioManager.get_total_value`. -/
def get_total_value (p : PortfolioManager) (current_prices : Prices) : ℚ :=
  p.cash_balance + p.positions.value current_prices

end PortfolioManager

/-! Auxiliary lemmas about the association-list operations, used for the
value-conservation proofs. -/

theorem Positions.get_set_self (ps : Positions) (s : String) (v : ℚ) :
    Positions.get (ps.set s v) s = v := by
  induction ps with
  | nil => simp [Positions.set, Positions.get]
  | cons p ps ih =>
      by_cases h : p.1 = s <;>
        simp [Positions.set, Positions.get, h, ih]

theorem Positions.value_set (ps : Positions) (pr : Prices) (s : String) (v : ℚ) :
    Positions.value (ps.set s v) pr =
      ps.value pr + (v - ps.get s) * Positions.get pr s := by
  induction ps with
  | nil => simp [Positions.set, Positions.value, Positions.get]
  | cons p ps ih =>
      by_cases h : p.1 = s
      · simp only [Positions.set, Positions.value, Positions.get, h, if_pos]
        ring
      · simp only [Positions.set, Positions.value, Positions.get, h,
          if_neg, ih, ite_false]
        ring

theorem Positions.value_erase (ps : Positions) (pr : Prices) (s : String) :
    Positions.value (ps.erase s) pr =
      ps.value pr - ps.get s * Positions.get pr s := by
  induction ps with
  | nil => simp [Positions.erase, Positions.value, Positions.get]
  | cons p ps ih =>
      by_cases h : p.1 = s
      · simp only [Positions.erase, Positions.value, Positions.get, h, if_pos]
        ring
      · simp only [Positions.erase, Positions.value, Positions.get, h,
          if_neg, ih, ite_false]
        ring

/-! Risk engine (`risk_engine.py`). -/

/-- `RiskEngine` state: the two limits plus the drawdown baseline, which the
constructor initialises to `0.0` ("unset"). -/
structure RiskEngine where
  max_position_size_pct : ℚ
  max_drawdown_pct : ℚ
  initial_balance : ℚ
  deriving DecidableEq, Repr

namespace RiskEngine

/-- Fall-through drawdown block of `check_trade_risk` (lines 81–92): when
`initial_balance > 0`, a `None` price dict is replaced by `{}` and the trade
passes iff the drawdown does not exceed the limit; otherwise it passes. -/
def drawdown_ok (e : RiskEngine) (p : PortfolioManager)
    (current_prices : Option Prices) : Bool :=
  if 0 < e.initial_balance then
    let prices := current_prices.getD []
    let current_value := p.get_total_value prices
    decide ((e.initial_balance - current_value) / e.initial_balance
      ≤ e.max_drawdown_pct)
  else true

/-- `RiskEngine.check_trade_risk`: for buys, the position-size rule runs
first (each failed check returns `False`, as does a missing price dict);
the drawdown block then applies to both sides. -/
def check_trade_risk (e : RiskEngine) (portfolio : PortfolioManager)
    (_symbol : String) (side : String) (amount price : ℚ)
    (current_prices : Option Prices) : Bool :=
  if side = "buy" then
    match current_prices with
    | none => false
    | some prices =>
        let trade_value := amount * price
        let total_portfolio_value := portfolio.get_total_value prices
        if total_portfolio_value ≤ 0 then false
        else if e.max_position_size_pct < trade_value / total_portfolio_value
          then false
        else e.drawdown_ok portfolio current_prices
  else e.drawdown_ok portfolio current_prices

end RiskEngine

/-! Signal aggregator (`aggregator.py`). -/

/-- Trade action enumeration. -/
inductive Action where
  | BUY
  | SELL
  | HOLD
  deriving DecidableEq, Repr

/-- `TradeSignal` dataclass fields (the `__post_init__` bound check is
modelled by `mkTradeSignal`). -/
structure TradeSignal where
  action : Action
  confidence : ℚ
  reason : Option String
  deriving DecidableEq, Repr

/-- `TradeSignal(...)` construction including `__post_init__`: `none`
models the `ValueError` raised when the confidence is out of `[0, 1]`. -/
def mkTradeSignal (action : Action) (confidence : ℚ) (reason : Option String) :
    Option TradeSignal :=
  if 0 ≤ confidence ∧ confidence ≤ 1 then
    some { action := action, confidence := confidence, reason := reason }
  else none

/-- `SignalAggregator` weights. -/
structure SignalAggregator where
  sentiment_weight : ℚ
  quantum_weight : ℚ
  ai_weight : ℚ
  deriving DecidableEq, Repr

namespace SignalAggregator

/-- `SignalAggregator.__init__`: `none` models the `ValueError` raised when
the weights do not sum to `1.0` within `1e-6`. -/
def init (sentiment_weight quantum_weight ai_weight : ℚ) :
    Option SignalAggregator :=
  let total_weight := sentiment_weight + quantum_weight + ai_weight
  if 1e-6 < |total_weight - 1| then none
  else some ⟨sentiment_weight, quantum_weight, ai_weight⟩

/-- `SignalAggregator._normalize_value`. -/
def normalize_value (value : ℚ) (min_val max_val : ℚ) : ℚ :=
  if min_val = max_val then 0
  else
    let normalized := (value - min_val) / (max_val - min_val)
    let scaled := 2 * normalized - 1
    max (-1) (min 1 scaled)

/-- `SignalAggregator._apply_veto_rules`; `none` models the `(None, None)`
return. -/
def apply_veto_rules (sentiment_data quantum_data ai_prediction
    weighted_score : ℚ) : Option (Action × String) :=
  if sentiment_data < -0.8 then
    if weighted_score < -0.5 then
      some (Action.SELL,
        "Veto: Strong negative sentiment with negative overall signal")
    else
      some (Action.HOLD, "Veto: Strong negative sentiment prevents buying")
  else if sentiment_data > 0.8 ∧ ai_prediction > 0.6 then
    some (Action.BUY, "Veto: Strong positive sentiment confirmed by AI")
  else if 0.9 < |quantum_data| ∧ 0.5 < |quantum_data - weighted_score| then
    some (Action.HOLD, "Veto: Quantum indicator shows extreme divergence")
  else none

/-- The weighted score computed inside `aggregate_signals`, after the
normalisation of each input. -/
def weighted_score (cfg : SignalAggregator)
    (sentiment_data quantum_data ai_prediction : ℚ) : ℚ :=
  normalize_value sentiment_data (-1) 1 * cfg.sentiment_weight +
    normalize_value quantum_data (-1) 1 * cfg.quantum_weight +
    normalize_value ai_prediction (-1) 1 * cfg.ai_weight

/-- `SignalAggregator.aggregate_signals`; `none` models a `ValueError`
escaping from `TradeSignal.__post_init__`. -/
def aggregate_signals (cfg : SignalAggregator)
    (sentiment_data quantum_data ai_prediction : ℚ) : Option TradeSignal :=
  let norm_sentiment := normalize_value sentiment_data (-1) 1
  let norm_quantum := normalize_value quantum_data (-1) 1
  let norm_ai := normalize_value ai_prediction (-1) 1
  let score := cfg.weighted_score sentiment_data quantum_data ai_prediction
  match apply_veto_rules norm_sentiment norm_quantum norm_ai score with
  | some (veto_action, veto_reason) =>
      mkTradeSignal veto_action (min 0.95 |score|) (some veto_reason)
  | none =>
      if score > 0.3 then
        mkTradeSignal Action.BUY (min 1 |score|)
          (some "Weighted score indicates bullish signal")
      else if score < -0.3 then
        mkTradeSignal Action.SELL (min 1 |score|)
          (some "Weighted score indicates bearish signal")
      else
        mkTradeSignal Action.HOLD (min 1 |score|)
          (some "Weighted score suggests neutral market")

end SignalAggregator

/-- With the default bounds `(-1, 1)`, `_normalize_value` is exactly the
clamp of its input to `[-1, 1]`. -/
theorem SignalAggregator.normalize_value_eq_clamp (x : ℚ) :
    SignalAggregator.normalize_value x (-1) 1 = max (-1) (min 1 x) := by
  unfold SignalAggregator.normalize_value
  norm_num
  ring_nf

/-! Paper trader (`paper_trader.py`).  `_log_trade` stamps records with
`datetime.now()`; the ambient wall clock is passed in as an explicit `now`
argument. -/

/-- `Trade` dataclass of `paper_trader.py`. -/
structure PTrade where
  timestamp : Nat
  action : Action
  price : ℚ
  amount : ℚ
  fee : ℚ
  balance_after : ℚ
  holdings_after : ℚ
  reason : Option String
  deriving DecidableEq, Repr

/-- `PaperTrader` state. -/
structure PaperTrader where
  initial_balance : ℚ
  balance : ℚ
  holdings : ℚ
  fee_rate : ℚ
  min_trade_amount : ℚ
  trade_history : List PTrade
  deriving DecidableEq, Repr

namespace PaperTrader

/-- `PaperTrader.__init__`. -/
def init (virtual_balance fee_rate min_trade_amount : ℚ) : PaperTrader :=
  { initial_balance := virtual_balance, balance := virtual_balance,
    holdings := 0, fee_rate := fee_rate,
    min_trade_amount := min_trade_amount, trade_history := [] }

/-- `PaperTrader.get_portfolio_value`. -/
def get_portfolio_value (pt : PaperTrader) (current_price : ℚ) : ℚ :=
  pt.balance + pt.holdings * current_price

/-- `PaperTrader.get_profit_loss` (absolute and percentage components). -/
def get_profit_loss (pt : PaperTrader) (current_price : ℚ) : ℚ × ℚ :=
  let current_value := pt.get_portfolio_value current_price
  let absolute_pl := current_value - pt.initial_balance
  (absolute_pl, absolute_pl / pt.initial_balance * 100)

/-- `PaperTrader._calculate_fee`. -/
def calculate_fee (pt : PaperTrader) (trade_amount : ℚ) : ℚ :=
  trade_amount * pt.fee_rate

/-- `PaperTrader._log_trade`: append one record carrying the post-mutation
balance and holdings; returns the updated trader and the record. -/
def log_trade (pt : PaperTrader) (action : Action) (price amount fee : ℚ)
    (reason : Option String) (now : Nat) : PaperTrader × PTrade :=
  let trade : PTrade :=
    { timestamp := now, action := action, price := price, amount := amount,
      fee := fee, balance_after := pt.balance,
      holdings_after := pt.holdings, reason := reason }
  ({ pt with trade_history := pt.trade_history ++ [trade] }, trade)

/-- `PaperTrader.execute_order`.  The `some .valueError` arm models the
raise on an out-of-range `trade_percentage`; the f-string reasons of the
insufficient-balance / nothing-to-sell / too-small branches are abridged to
their fixed prefixes. -/
def execute_order (pt : PaperTrader) (signal : TradeSignal)
    (current_price trade_percentage : ℚ) (now : Nat) :
    Except PMError (PaperTrader × Option PTrade) :=
  if ¬ (0 ≤ trade_percentage ∧ trade_percentage ≤ 1) then
    Except.error PMError.valueError
  else if signal.action = Action.HOLD then
    Except.ok ((pt.log_trade Action.HOLD current_price 0 0 signal.reason now).1,
      none)
  else if signal.action = Action.BUY then
    let available_balance := pt.balance * trade_percentage
    if available_balance < pt.min_trade_amount then
      Except.ok ((pt.log_trade Action.HOLD current_price 0 0
        (some "Insufficient balance for BUY") now).1, none)
    else
      let fee := pt.calculate_fee available_balance
      let amount_after_fee := available_balance - fee
      let asset_amount := amount_after_fee / current_price
      let pt1 := { pt with balance := pt.balance - available_balance,
                           holdings := pt.holdings + asset_amount }
      let logged := pt1.log_trade Action.BUY current_price asset_amount fee
        signal.reason now
      Except.ok (logged.1, some logged.2)
  else
    let asset_to_sell := pt.holdings * trade_percentage
    if asset_to_sell ≤ 0 then
      Except.ok ((pt.log_trade Action.HOLD current_price 0 0
        (some "No assets to sell") now).1, none)
    else
      let sale_proceeds := asset_to_sell * current_price
      if sale_proceeds < pt.min_trade_amount then
        Except.ok ((pt.log_trade Action.HOLD current_price 0 0
          (some "Sale amount too small") now).1, none)
      else
        let fee := pt.calculate_fee sale_proceeds
        let proceeds_after_fee := sale_proceeds - fee
        let pt1 := { pt with balance := pt.balance + proceeds_after_fee,
                             holdings := pt.holdings - asset_to_sell }
        let logged := pt1.log_trade Action.SELL current_price asset_to_sell
          fee signal.reason now
        Except.ok (logged.1, some logged.2)

end PaperTrader

/-! Backtesting engine (`backtesting/engine.py`). -/

/-- One historical data row; only the fields that `Backtester.run` reads
(`timestamp` and `close`) are modelled. -/
structure Row where
  timestamp : Nat
  close : ℚ
  deriving DecidableEq, Repr

/-- One `trade_history` entry.  BUY records have no `pnl`/`pnl_pct` keys,
modelled with `none`. -/
structure BtTradeRec where
  timestamp : Nat
  type : String
  price : ℚ
  amount : ℚ
  commission : ℚ
  cash_before : ℚ
  pnl : Option ℚ
  pnl_pct : Option ℚ
  deriving DecidableEq, Repr

/-- One `equity_curve` entry. -/
structure EquityPoint where
  timestamp : Nat
  total_value : ℚ
  cash : ℚ
  asset_value : ℚ
  deriving DecidableEq, Repr

/-- Mutable fields of a `Backtester`; `position` is `true` for `'LONG'` and
`false` for `None` (the only two values the source assigns). -/
structure BtState where
  cash : ℚ
  asset_balance : ℚ
  position : Bool
  equity_curve : List EquityPoint
  trade_history : List BtTradeRec
  deriving DecidableEq, Repr

/-- Constructor arguments of `Backtester`. -/
structure BtConfig where
  initial_capital : ℚ
  commission_rate : ℚ
  deriving DecidableEq, Repr

namespace Backtester

/-- `Backtester._execute_buy`. -/
def execute_buy (cfg : BtConfig) (st : BtState) (row : Row) : BtState :=
  let price := row.close
  let commission := st.cash * cfg.commission_rate
  let available_cash := st.cash - commission
  if 0 < available_cash then
    let asset_balance := available_cash / price
    { st with
        asset_balance := asset_balance,
        position := true,
        trade_history := st.trade_history ++
          [{ timestamp := row.timestamp, type := "BUY", price := price,
             amount := asset_balance, commission := commission,
             cash_before := st.cash, pnl := none, pnl_pct := none }],
        cash := 0 }
  else st

/-- The `[t for t in trade_history if t.type == BUY][-1]` lookup used by
`_execute_sell`; `none` corresponds to the list being empty (where the
source would raise `IndexError`, a branch unreachable from `run` because a
`'LONG'` position implies a prior BUY record). -/
def last_buy (history : List BtTradeRec) : Option BtTradeRec :=
  (history.filter (fun t => t.type = "BUY")).getLast?

/-- `Backtester._execute_sell`. -/
def execute_sell (cfg : BtConfig) (st : BtState) (row : Row) : BtState :=
  let price := row.close
  let proceeds := st.asset_balance * price
  let commission := proceeds * cfg.commission_rate
  let cash_before := st.cash
  let asset_amount := st.asset_balance
  let new_cash := proceeds - commission
  let pnlPair : ℚ × ℚ :=
    if st.trade_history.length > 0 then
      match last_buy st.trade_history with
      | some t => (new_cash - t.cash_before,
          (new_cash - t.cash_before) / t.cash_before * 100)
      | none => (0, 0)
    else (0, 0)
  { st with
      cash := new_cash,
      asset_balance := 0,
      position := false,
      trade_history := st.trade_history ++
        [{ timestamp := row.timestamp, type := "SELL", price := price,
           amount := asset_amount, commission := commission,
           cash_before := cash_before, pnl := some pnlPair.1,
           pnl_pct := some pnlPair.2 }] }

/-- One iteration of the `for idx, row in data.iterrows()` loop of
`Backtester.run`: act on the signal, then append the equity-curve point
computed from the updated state. -/
def step (cfg : BtConfig) (strategy_logic : Row → String)
    (st : BtState) (row : Row) : BtState :=
  let signal := strategy_logic row
  let st1 :=
    if signal = "BUY" ∧ st.position = false then execute_buy cfg st row
    else if signal = "SELL" ∧ st.position = true then execute_sell cfg st row
    else st
  let portfolio_value :=
    if st1.position then st1.cash + st1.asset_balance * row.close
    else st1.cash
  { st1 with
      equity_curve := st1.equity_curve ++
        [{ timestamp := row.timestamp, total_value := portfolio_value,
           cash := st1.cash,
           asset_value := if st1.position then st1.asset_balance * row.close
             else 0 }] }

/-- The state-reset block at the top of `Backtester.run`. -/
def resetState (cfg : BtConfig) : BtState :=
  { cash := cfg.initial_capital, asset_balance := 0, position := false,
    equity_curve := [], trade_history := [] }

/-- Result dictionary returned by `Backtester.run`. -/
structure BtResult where
  equity_curve : List EquityPoint
  trade_history : List BtTradeRec
  final_value : ℚ
  initial_capital : ℚ
  deriving DecidableEq, Repr

/-- `Backtester.run`: reset the mutable state, fold the per-row step over
the data, and package the result.  `st0` is the mutable state the object
carries *before* the call (possibly dirty from an earlier run) and `clock`
is the ambient wall clock available to the module through its `datetime`
import; the body consults neither, which is exactly the determinism claim. -/
def run (cfg : BtConfig) (st0 : BtState) (clock : Nat) (data : List Row)
    (strategy_logic : Row → String) : BtResult × BtState :=
  let _ := st0
  let _ := clock
  let final := data.foldl (step cfg strategy_logic) (resetState cfg)
  ({ equity_curve := final.equity_curve,
     trade_history := final.trade_history,
     final_value :=
       ((final.equity_curve.getLast?).map EquityPoint.total_value).getD
         cfg.initial_capital,
     initial_capital := cfg.initial_capital }, final)

end Backtester

/-! Operation sequences on the ledger, for the cash invariant. -/

/-- One call to a mutating `PortfolioManager` method. -/
inductive LedgerOp where
  | deposit (amount : ℚ)
  | withdraw (amount : ℚ)
  | trade (tx : Transaction)
  deriving DecidableEq, Repr

/-- Dispatch one operation; the state component is the post-state (equal to
the entry state when the call raised, as in the source). -/
def LedgerOp.apply (p : PortfolioManager) :
    LedgerOp → PortfolioManager × Option PMError
  | .deposit amount => p.deposit amount
  | .withdraw amount => p.withdraw amount
  | .trade tx => p.execute_trade tx

/-- Run a sequence of operations, keeping the state left behind by each
call whether it raised or not. -/
def LedgerOp.runOps (p : PortfolioManager) (ops : List LedgerOp) :
    PortfolioManager :=
  ops.foldl (fun st op => (LedgerOp.apply st op).1) p

/-- A sell transaction whose `total_cost` is non-negative (in particular
any sell priced by the documented formula with `fee ≤ price · amount`);
trivially true of the other operations. -/
def LedgerOp.sellCostNonneg : LedgerOp → Prop
  | .trade tx => tx.side = "sell" → 0 ≤ tx.total_cost
  | _ => True

instance (op : LedgerOp) : Decidable op.sellCostNonneg := by
  cases op <;> simp [LedgerOp.sellCostNonneg] <;> infer_instance

/-! ## Claim C1 — value conservation of the ledger -/

/-- Portfolio holding one unit of BTC, no cash. -/
def c1_portfolio : PortfolioManager :=
  { cash_balance := 0, positions := [("BTC", 1)] }

/-- Sell that leaves a residue of `5e-10` BTC, below the `1e-9` deletion
tolerance; `total_cost` follows the documented formula `price·amount − fee`. -/
def c1_tx : Transaction :=
  { id := "t1", timestamp := 0, symbol := "BTC", side := "sell",
    amount := 1 - 1/2000000000, price := 1, fee := 0,
    total_cost := 1 - 1/2000000000 }

def c1_prices : Prices := [("BTC", 1)]

/-- C1 as stated is false: a successful sell that leaves a nonzero residue
below the `1e-9` tolerance deletes the whole entry, so the total portfolio
value at the trade price drops by the residue in addition to the fee. -/
theorem C1_counterexample :
    (c1_portfolio.execute_trade c1_tx).2 = none ∧
    c1_tx.total_cost = c1_tx.price * c1_tx.amount - c1_tx.fee ∧
    Positions.get c1_prices c1_tx.symbol = c1_tx.price ∧
    ¬ ((c1_portfolio.execute_trade c1_tx).1.cash_balance +
        Positions.value (c1_portfolio.execute_trade c1_tx).1.positions c1_prices =
      c1_portfolio.cash_balance +
        Positions.value c1_portfolio.positions c1_prices - c1_tx.fee) := by
  norm_num [c1_portfolio, c1_tx, c1_prices, PortfolioManager.execute_trade,
    Positions.get, Positions.set, Positions.erase, Positions.value,
    abs_of_pos, show (("sell" : String) = "buy") = False by decide]

/-- C1 (amended): a successful `execute_trade` whose `total_cost` follows
the documented formula conserves total value (at a price map that prices
the traded symbol at the trade price) up to exactly the fee, provided a
sell does not leave a nonzero residue strictly inside the `1e-9` deletion
tolerance. -/
theorem C1_value_conservation (p : PortfolioManager) (tx : Transaction)
    (prices : Prices) (p' : PortfolioManager)
    (hrun : p.execute_trade tx = (p', none))
    (hprice : Positions.get prices tx.symbol = tx.price)
    (hbuy : tx.side = "buy" → tx.total_cost = tx.price * tx.amount + tx.fee)
    (hsell : tx.side = "sell" → tx.total_cost = tx.price * tx.amount - tx.fee)
    (hres : tx.side = "sell" →
      p.positions.get tx.symbol - tx.amount = 0 ∨
        ¬ |p.positions.get tx.symbol - tx.amount| < 1e-9) :
    p'.cash_balance + Positions.value p'.positions prices =
      p.cash_balance + Positions.value p.positions prices - tx.fee := by
  simp only [PortfolioManager.execute_trade] at hrun
  split_ifs at hrun with h1 h2 h3 hb hf hs hcur hdel
  all_goals simp only [Prod.mk.injEq, reduceCtorEq, and_false, and_true] at hrun
  · -- buy success
    subst hrun
    simp only [Positions.value_set]
    rw [hprice, hbuy hb]
    ring
  · -- sell success, residue deleted: it must be exactly zero
    subst hrun
    have hzero : p.positions.get tx.symbol - tx.amount = 0 := by
      rcases hres hs with h | h
      · exact h
      · exact absurd (by simpa [Positions.get_set_self] using hdel) h
    have hcureq : p.positions.get tx.symbol = tx.amount := by linarith
    simp only [Positions.value_erase, Positions.value_set,
      Positions.get_set_self]
    rw [hprice, hsell hs, hcureq]
    ring
  · -- sell success, residue kept
    subst hrun
    simp only [Positions.value_set]
    rw [hprice, hsell hs]
    ring

/-- Concrete instantiation of `C1_value_conservation`: buying one unit at
price 10 with fee 1 (total cost 11) from 100 in cash ends at 89 cash plus a
position worth 10, conserving value up to the fee. -/
theorem C1_witness :
    PortfolioManager.execute_trade
        { cash_balance := 100, positions := [] }
        { id := "t2", timestamp := 0, symbol := "BTC", side := "buy",
          amount := 1, price := 10, fee := 1, total_cost := 11 } =
      ({ cash_balance := 89, positions := [("BTC", 1)] }, none) ∧
    (89 : ℚ) + Positions.value [("BTC", 1)] [("BTC", 10)] =
      (100 : ℚ) + Positions.value [] [("BTC", 10)] - 1 := by
  constructor
  · norm_num [PortfolioManager.execute_trade, Positions.get, Positions.set,
      show (("buy" : String) = "buy") = True by decide]
  · have h := C1_value_conservation
      { cash_balance := 100, positions := [] }
      { id := "t2", timestamp := 0, symbol := "BTC", side := "buy",
        amount := 1, price := 10, fee := 1, total_cost := 11 }
      [("BTC", 10)]
      { cash_balance := 89, positions := [("BTC", 1)] }
      (by norm_num [PortfolioManager.execute_trade, Positions.get,
        Positions.set, show (("buy" : String) = "buy") = True by decide])
      (by norm_num [Positions.get])
      (by intro _; norm_num)
      (by intro hcontra; exact absurd hcontra (by decide))
      (by intro hcontra; exact absurd hcontra (by decide))
    simpa using h

/-! ## Claim C2 — fund/holdings guards with atomicity -/

/-- C2: a valid buy whose total cost exceeds the cash balance raises
`InsufficientFundsError`, and a valid sell whose amount exceeds the held
quantity raises `InsufficientHoldingsError`; in both cases the call leaves
the state exactly as it was (the returned state component is the entry
state: no partial mutation happens on the error path). -/
theorem C2_guards_atomic :
    (∀ (p : PortfolioManager) (tx : Transaction),
      0 < tx.amount → 0 < tx.price → 0 ≤ tx.fee → tx.side = "buy" →
      p.cash_balance < tx.total_cost →
      p.execute_trade tx = (p, some PMError.insufficientFunds)) ∧
    (∀ (p : PortfolioManager) (tx : Transaction),
      0 < tx.amount → 0 < tx.price → 0 ≤ tx.fee → tx.side = "sell" →
      p.positions.get tx.symbol < tx.amount →
      p.execute_trade tx = (p, some PMError.insufficientHoldings)) := by
  constructor
  · intro p tx hamt hpr hfee hside hguard
    simp [PortfolioManager.execute_trade, hside, not_le.mpr hamt,
      not_le.mpr hpr, not_lt.mpr hfee, hguard]
  · intro p tx hamt hpr hfee hside hguard
    simp [PortfolioManager.execute_trade, hside, not_le.mpr hamt,
      not_le.mpr hpr, not_lt.mpr hfee, hguard]

/-- Concrete instantiation of `C2_guards_atomic`: a buy costing 11 against
5 in cash, and a sell of 2 units against an empty book, each raise and
leave the state unchanged. -/
theorem C2_witness :
    PortfolioManager.execute_trade { cash_balance := 5, positions := [] }
        { id := "b", timestamp := 0, symbol := "BTC", side := "buy",
          amount := 1, price := 10, fee := 1, total_cost := 11 } =
      ({ cash_balance := 5, positions := [] },
        some PMError.insufficientFunds) ∧
    PortfolioManager.execute_trade { cash_balance := 5, positions := [] }
        { id := "s", timestamp := 0, symbol := "BTC", side := "sell",
          amount := 2, price := 10, fee := 1, total_cost := 19 } =
      ({ cash_balance := 5, positions := [] },
        some PMError.insufficientHoldings) := by
  constructor
  · exact C2_guards_atomic.1
      { cash_balance := 5, positions := [] }
      { id := "b", timestamp := 0, symbol := "BTC", side := "buy",
        amount := 1, price := 10, fee := 1, total_cost := 11 }
      (by norm_num) (by norm_num) (by norm_num) rfl (by norm_num)
  · exact C2_guards_atomic.2
      { cash_balance := 5, positions := [] }
      { id := "s", timestamp := 0, symbol := "BTC", side := "sell",
        amount := 2, price := 10, fee := 1, total_cost := 19 }
      (by norm_num) (by norm_num) (by norm_num) rfl
      (by norm_num [Positions.get])

/-! ## Claims C3, C4 — signal aggregation -/

theorem mkTradeSignal_eq (a : Action) (c : ℚ) (r : Option String)
    (h0 : 0 ≤ c) (h1 : c ≤ 1) :
    mkTradeSignal a c r = some { action := a, confidence := c, reason := r } := by
  simp [mkTradeSignal, h0, h1]

theorem min_one_abs_bounds (x : ℚ) : 0 ≤ min 1 |x| ∧ min 1 |x| ≤ 1 :=
  ⟨le_min (by norm_num) (abs_nonneg x), min_le_left _ _⟩

theorem min_veto_abs_bounds (x : ℚ) :
    0 ≤ min 0.95 |x| ∧ min 0.95 |x| ≤ 1 :=
  ⟨le_min (by norm_num) (abs_nonneg x),
    le_trans (min_le_left _ _) (by norm_num)⟩

/-- C3: `aggregate_signals` clamps each input to `[-1, 1]`, weighs the
clamped values into `weighted_score`, never raises (the confidence of the
returned signal is always in `[0, 1]`), and — whenever no veto rule
matches — returns BUY above `0.3`, SELL below `-0.3`, HOLD otherwise,
with confidence `min 1 |weighted_score|`. -/
theorem C3_aggregator_default (cfg : SignalAggregator) (s q a : ℚ) :
    (cfg.weighted_score s q a =
      max (-1) (min 1 s) * cfg.sentiment_weight +
        max (-1) (min 1 q) * cfg.quantum_weight +
        max (-1) (min 1 a) * cfg.ai_weight) ∧
    (∃ sig, cfg.aggregate_signals s q a = some sig ∧
        0 ≤ sig.confidence ∧ sig.confidence ≤ 1) ∧
    (SignalAggregator.apply_veto_rules (max (-1) (min 1 s))
        (max (-1) (min 1 q)) (max (-1) (min 1 a))
        (cfg.weighted_score s q a) = none →
      ∃ sig, cfg.aggregate_signals s q a = some sig ∧
        sig.action = (if 0.3 < cfg.weighted_score s q a then Action.BUY
          else if cfg.weighted_score s q a < -0.3 then Action.SELL
          else Action.HOLD) ∧
        sig.confidence = min 1 |cfg.weighted_score s q a|) := by
  refine ⟨?_, ?_, ?_⟩
  · unfold SignalAggregator.weighted_score
    rw [SignalAggregator.normalize_value_eq_clamp,
      SignalAggregator.normalize_value_eq_clamp,
      SignalAggregator.normalize_value_eq_clamp]
  · unfold SignalAggregator.aggregate_signals
    dsimp only
    cases hv : SignalAggregator.apply_veto_rules
        (SignalAggregator.normalize_value s (-1) 1)
        (SignalAggregator.normalize_value q (-1) 1)
        (SignalAggregator.normalize_value a (-1) 1)
        (cfg.weighted_score s q a) with
    | some pair =>
        obtain ⟨va, vr⟩ := pair
        dsimp only
        rw [mkTradeSignal_eq va _ _ (min_veto_abs_bounds _).1
          (min_veto_abs_bounds _).2]
        exact ⟨_, rfl, (min_veto_abs_bounds _).1, (min_veto_abs_bounds _).2⟩
    | none =>
        dsimp only
        split_ifs <;>
          rw [mkTradeSignal_eq _ _ _ (min_one_abs_bounds _).1
            (min_one_abs_bounds _).2] <;>
          exact ⟨_, rfl, (min_one_abs_bounds _).1, (min_one_abs_bounds _).2⟩
  · intro hveto
    unfold SignalAggregator.aggregate_signals
    dsimp only
    simp only [SignalAggregator.normalize_value_eq_clamp]
    rw [hveto]
    dsimp only
    split_ifs with hbuy hsell
    · rw [mkTradeSignal_eq _ _ _ (min_one_abs_bounds _).1
        (min_one_abs_bounds _).2]
      exact ⟨_, rfl, by simp [hbuy], rfl⟩
    · rw [mkTradeSignal_eq _ _ _ (min_one_abs_bounds _).1
        (min_one_abs_bounds _).2]
      exact ⟨_, rfl, by simp [hbuy, hsell], rfl⟩
    · rw [mkTradeSignal_eq _ _ _ (min_one_abs_bounds _).1
        (min_one_abs_bounds _).2]
      exact ⟨_, rfl, by simp [hbuy, hsell], rfl⟩


/-- Concrete instantiation of `C3_aggregator_default` at the default
weights and neutral inputs: no veto fires and the result is HOLD with zero
confidence. -/
theorem C3_witness :
    (SignalAggregator.apply_veto_rules (max (-1) (min 1 (0 : ℚ)))
        (max (-1) (min 1 (0 : ℚ))) (max (-1) (min 1 (0 : ℚ)))
        ((⟨0.3, 0.2, 0.5⟩ : SignalAggregator).weighted_score 0 0 0) = none) ∧
    (∃ sig, (⟨0.3, 0.2, 0.5⟩ : SignalAggregator).aggregate_signals 0 0 0 =
          some sig ∧
        sig.action = (if 0.3 < (⟨0.3, 0.2, 0.5⟩ : SignalAggregator).weighted_score 0 0 0
            then Action.BUY
          else if (⟨0.3, 0.2, 0.5⟩ : SignalAggregator).weighted_score 0 0 0 < -0.3
            then Action.SELL
          else Action.HOLD) ∧
        sig.confidence =
          min 1 |(⟨0.3, 0.2, 0.5⟩ : SignalAggregator).weighted_score 0 0 0|) :=
  ⟨by norm_num [SignalAggregator.apply_veto_rules,
      SignalAggregator.weighted_score, SignalAggregator.normalize_value],
    (C3_aggregator_default ⟨0.3, 0.2, 0.5⟩ 0 0 0).2.2
      (by norm_num [SignalAggregator.apply_veto_rules,
        SignalAggregator.weighted_score, SignalAggregator.normalize_value])⟩

/-- The first veto rule of `_apply_veto_rules`, as seen through
`aggregate_signals`: strong clamped-negative sentiment short-circuits the
threshold logic. -/
theorem neg_sentiment_veto_rule (cfg : SignalAggregator) (s q a : ℚ)
    (hs : max (-1) (min 1 s) < -0.8) :
    cfg.aggregate_signals s q a = some
      { action := if cfg.weighted_score s q a < -0.5 then Action.SELL
          else Action.HOLD,
        confidence := min 0.95 |cfg.weighted_score s q a|,
        reason := some (if cfg.weighted_score s q a < -0.5 then
            "Veto: Strong negative sentiment with negative overall signal"
          else "Veto: Strong negative sentiment prevents buying") } := by
  unfold SignalAggregator.aggregate_signals
  dsimp only
  simp only [SignalAggregator.normalize_value_eq_clamp]
  by_cases hw : cfg.weighted_score s q a < -0.5
  · simp only [SignalAggregator.apply_veto_rules, if_pos hs, if_pos hw]
    rw [mkTradeSignal_eq _ _ _ (min_veto_abs_bounds _).1
      (min_veto_abs_bounds _).2]
  · simp only [SignalAggregator.apply_veto_rules, if_pos hs, if_neg hw]
    rw [mkTradeSignal_eq _ _ _ (min_veto_abs_bounds _).1
      (min_veto_abs_bounds _).2]

/-- C4: whenever the clamped sentiment is below `-0.8`, `aggregate_signals`
short-circuits to SELL (if the weighted score is below `-0.5`) or HOLD,
with confidence `min 0.95 |weighted_score|` and the negative-sentiment veto
reason, regardless of the quantum and AI inputs (so the rule precedes the
agreement and divergence vetoes); in particular `aggregate(-0.9, 0.5, 0.5)`
under any weights accepted by the constructor yields HOLD or SELL with a
reason naming that veto. -/
theorem C4_negative_sentiment_veto :
    (∀ (cfg : SignalAggregator) (s q a : ℚ),
      max (-1) (min 1 s) < -0.8 →
      cfg.aggregate_signals s q a = some
        { action := if cfg.weighted_score s q a < -0.5 then Action.SELL
            else Action.HOLD,
          confidence := min 0.95 |cfg.weighted_score s q a|,
          reason := some (if cfg.weighted_score s q a < -0.5 then
              "Veto: Strong negative sentiment with negative overall signal"
            else "Veto: Strong negative sentiment prevents buying") }) ∧
    (∀ (sw qw aw : ℚ) (cfg : SignalAggregator),
      SignalAggregator.init sw qw aw = some cfg →
      ∃ sig, cfg.aggregate_signals (-0.9) 0.5 0.5 = some sig ∧
        (sig.action = Action.HOLD ∨ sig.action = Action.SELL) ∧
        (sig.reason =
            some "Veto: Strong negative sentiment with negative overall signal" ∨
          sig.reason =
            some "Veto: Strong negative sentiment prevents buying")) := by
  constructor
  · exact fun cfg s q a hs => neg_sentiment_veto_rule cfg s q a hs
  · intro sw qw aw cfg _
    refine ⟨_, neg_sentiment_veto_rule cfg (-0.9) 0.5 0.5 (by norm_num), ?_, ?_⟩
    · by_cases hw : cfg.weighted_score (-0.9) 0.5 0.5 < -0.5 <;>
        simp [hw]
    · by_cases hw : cfg.weighted_score (-0.9) 0.5 0.5 < -0.5 <;>
        simp [hw]

/-- Concrete instantiation of `C4_negative_sentiment_veto` at the default
weights. -/
theorem C4_witness :
    ((⟨0.3, 0.2, 0.5⟩ : SignalAggregator).aggregate_signals (-0.9) 0.5 0.5 =
      some
        { action := if (⟨0.3, 0.2, 0.5⟩ : SignalAggregator).weighted_score
              (-0.9) 0.5 0.5 < -0.5 then Action.SELL else Action.HOLD,
          confidence := min 0.95
            |(⟨0.3, 0.2, 0.5⟩ : SignalAggregator).weighted_score (-0.9) 0.5 0.5|,
          reason := some (if (⟨0.3, 0.2, 0.5⟩ : SignalAggregator).weighted_score
              (-0.9) 0.5 0.5 < -0.5 then
              "Veto: Strong negative sentiment with negative overall signal"
            else "Veto: Strong negative sentiment prevents buying") }) ∧
    (∃ sig, (⟨0.3, 0.2, 0.5⟩ : SignalAggregator).aggregate_signals
          (-0.9) 0.5 0.5 = some sig ∧
        (sig.action = Action.HOLD ∨ sig.action = Action.SELL) ∧
        (sig.reason =
            some "Veto: Strong negative sentiment with negative overall signal" ∨
          sig.reason =
            some "Veto: Strong negative sentiment prevents buying")) :=
  ⟨C4_negative_sentiment_veto.1 ⟨0.3, 0.2, 0.5⟩ (-0.9) 0.5 0.5 (by norm_num),
    C4_negative_sentiment_veto.2 0.3 0.2 0.5 ⟨0.3, 0.2, 0.5⟩
      (by norm_num [SignalAggregator.init])⟩


/-! ## Claim C5 — drawdown gate -/

/-- C5: once `initial_balance` is positive, `check_trade_risk` returns
`false` for every trade (buy or sell) whose current drawdown, computed at
the given prices (`{}` when absent), exceeds `max_drawdown_pct`; while
`initial_balance` is still zero the drawdown block passes everything and a
sell is always approved; in particular with baseline 10000, limit 0.2 and
a valuation of 7500 every buy is rejected. -/
theorem C5_drawdown_gate :
    (∀ (e : RiskEngine) (p : PortfolioManager) (symbol side : String)
        (amount price : ℚ) (cps : Option Prices),
      0 < e.initial_balance →
      e.max_drawdown_pct <
        (e.initial_balance - p.get_total_value (cps.getD [])) /
          e.initial_balance →
      e.check_trade_risk p symbol side amount price cps = false) ∧
    (∀ (e : RiskEngine) (p : PortfolioManager) (symbol : String)
        (amount price : ℚ) (cps : Option Prices),
      e.initial_balance = 0 →
      e.drawdown_ok p cps = true ∧
      e.check_trade_risk p symbol "sell" amount price cps = true) ∧
    (∀ (e : RiskEngine) (p : PortfolioManager) (symbol : String)
        (amount price : ℚ) (cps : Option Prices),
      e.initial_balance = 10000 → e.max_drawdown_pct = 0.2 →
      p.get_total_value (cps.getD []) = 7500 →
      e.check_trade_risk p symbol "buy" amount price cps = false) := by
  have hdd : ∀ (e : RiskEngine) (p : PortfolioManager) (cps : Option Prices),
      0 < e.initial_balance →
      e.max_drawdown_pct <
        (e.initial_balance - p.get_total_value (cps.getD [])) /
          e.initial_balance →
      e.drawdown_ok p cps = false := by
    intro e p cps hpos hexc
    simp only [RiskEngine.drawdown_ok, if_pos hpos]
    simpa using not_le.mpr hexc
  refine ⟨?_, ?_, ?_⟩
  · intro e p symbol side amount price cps hpos hexc
    unfold RiskEngine.check_trade_risk
    split_ifs with hside
    · cases cps with
      | none => rfl
      | some prices =>
          dsimp only
          split_ifs with h1 h2
          · rfl
          · rfl
          · exact hdd e p (some prices) hpos hexc
    · exact hdd e p cps hpos hexc
  · intro e p symbol amount price cps hzero
    have hok : e.drawdown_ok p cps = true := by
      simp [RiskEngine.drawdown_ok, hzero]
    refine ⟨hok, ?_⟩
    unfold RiskEngine.check_trade_risk
    rw [if_neg (by simp)]
    exact hok
  · intro e p symbol amount price cps hinit hmax hval
    unfold RiskEngine.check_trade_risk
    rw [if_pos rfl]
    cases cps with
    | none => rfl
    | some prices =>
        dsimp only
        split_ifs with h1 h2
        · rfl
        · rfl
        · refine hdd e p (some prices) (by rw [hinit]; norm_num) ?_
          rw [hinit, hmax, hval]
          norm_num
  
/-- Concrete instantiation of `C5_drawdown_gate`: baseline 10000, limit
0.2, all cash 7500 — a buy of 1 unit at 10 is rejected, and with the
baseline unset the same sell is approved. -/
theorem C5_witness :
    ((⟨0.25, 0.2, 10000⟩ : RiskEngine).check_trade_risk
        ⟨7500, []⟩ "BTC" "buy" 1 10 (some []) = false) ∧
    ((⟨0.25, 0.2, 0⟩ : RiskEngine).check_trade_risk
        ⟨7500, []⟩ "BTC" "sell" 1 10 (some []) = true) :=
  ⟨(C5_drawdown_gate.2.2 ⟨0.25, 0.2, 10000⟩ ⟨7500, []⟩ "BTC" 1 10 (some [])
      rfl rfl (by norm_num [PortfolioManager.get_total_value,
        Positions.value])),
    ((C5_drawdown_gate.2.1 ⟨0.25, 0.2, 0⟩ ⟨7500, []⟩ "BTC" 1 10
      (some []) rfl).2)⟩


/-! ## Claim C6 — backtest determinism -/

/-- C6: the output of `Backtester.run` depends only on the input rows, the
strategy function and the constructor parameters — not on the mutable state
left by an earlier run (the method resets it) and not on the ambient wall
clock — so two runs over the same data produce identical equity curves and
trade histories. -/
theorem C6_backtest_determinism (cfg : BtConfig) (st0 st1 : BtState)
    (clock clock1 : Nat) (data : List Row) (strategy_logic : Row → String) :
    (Backtester.run cfg st0 clock data strategy_logic).1 =
      (Backtester.run cfg st1 clock1 data strategy_logic).1 := rfl

/-! ## Claim C7 — non-negative cash -/

/-- C7 as stated is false: the constructor performs no validation, so a
ledger built with a negative starting balance already violates
`cashBalance ≥ 0` at construction time. -/
theorem C7_counterexample : (PortfolioManager.init (-100)).cash_balance < 0 := by
  norm_num [PortfolioManager.init]

/-- One mutating call keeps the cash balance non-negative, provided a sell
transaction carries a non-negative `total_cost` (sells add the raw
caller-supplied `total_cost` to cash). -/
theorem ledger_step_cash_nonneg (p : PortfolioManager) (op : LedgerOp)
    (hp : 0 ≤ p.cash_balance) (hop : op.sellCostNonneg) :
    0 ≤ (op.apply p).1.cash_balance := by
  cases op with
  | deposit amount =>
      simp only [LedgerOp.apply, PortfolioManager.deposit]
      split_ifs with h
      · exact hp
      · dsimp only
        linarith [not_le.mp h]
  | withdraw amount =>
      simp only [LedgerOp.apply, PortfolioManager.withdraw]
      split_ifs with h1 h2
      · exact hp
      · exact hp
      · dsimp only
        linarith [not_lt.mp h2]
  | trade tx =>
      simp only [LedgerOp.apply, PortfolioManager.execute_trade]
      split_ifs with h1 h2 h3 hb hf hs hcur hdel
      all_goals dsimp only
      all_goals try exact hp
      · linarith [not_lt.mp hf]
      · have := hop hs
        linarith
      · have := hop hs
        linarith

/-- C7 (amended): non-negativity of the cash balance is not established by
the constructor, but it is preserved by every mutating operation: starting
from any state with non-negative cash, any sequence of `deposit`,
`withdraw` and `execute_trade` calls whose sells carry a non-negative
`total_cost` keeps the cash balance non-negative at every point, whether
individual calls raise or succeed. -/
theorem C7_cash_nonneg (p : PortfolioManager) (ops : List LedgerOp)
    (hp : 0 ≤ p.cash_balance)
    (hops : ∀ op ∈ ops, LedgerOp.sellCostNonneg op) :
    0 ≤ (LedgerOp.runOps p ops).cash_balance := by
  induction ops generalizing p with
  | nil => exact hp
  | cons op ops ih =>
      have hstep := ledger_step_cash_nonneg p op hp
        (hops op (List.mem_cons_self op ops))
      exact ih _ hstep fun o ho => hops o (List.mem_cons_of_mem op ho)

/-- Concrete instantiation of `C7_cash_nonneg`: deposit, buy, sell and
withdraw from 100 in cash end with a non-negative balance. -/
theorem C7_witness :
    0 ≤ (LedgerOp.runOps ⟨100, []⟩
      [LedgerOp.deposit 50,
       LedgerOp.trade ⟨"b", 0, "BTC", "buy", 1, 10, 1, 11⟩,
       LedgerOp.trade ⟨"s", 1, "BTC", "sell", 1, 12, 1, 11⟩,
       LedgerOp.withdraw 60]).cash_balance :=
  C7_cash_nonneg ⟨100, []⟩ _ (by norm_num)
    (by
      intro op hop
      fin_cases hop <;> simp [LedgerOp.sellCostNonneg])


/-! ## Claim C8 — end-to-end paper-trading scenario -/

def c8_trader : PaperTrader := PaperTrader.init 10000 0.001 10

def c8_buy_signal : TradeSignal :=
  { action := Action.BUY, confidence := 1, reason := none }

def c8_sell_signal : TradeSignal :=
  { action := Action.SELL, confidence := 1, reason := none }

/-- Trade record produced by the all-in buy at price 100. -/
def c8_buy_trade : PTrade :=
  { timestamp := 0, action := Action.BUY, price := 100, amount := 999/10,
    fee := 10, balance_after := 0, holdings_after := 999/10, reason := none }

def c8_after_buy : PaperTrader :=
  { initial_balance := 10000, balance := 0, holdings := 999/10,
    fee_rate := 0.001, min_trade_amount := 10,
    trade_history := [c8_buy_trade] }

/-- Trade record produced by the sell-all at price 120. -/
def c8_sell_trade : PTrade :=
  { timestamp := 1, action := Action.SELL, price := 120, amount := 999/10,
    fee := 11988/1000, balance_after := 11976012/1000, holdings_after := 0,
    reason := none }

def c8_after_sell : PaperTrader :=
  { initial_balance := 10000, balance := 11976012/1000, holdings := 0,
    fee_rate := 0.001, min_trade_amount := 10,
    trade_history := [c8_buy_trade, c8_sell_trade] }

/-- C8 as stated is false: buying all-in from 10000 at price 100 with fee
rate 0.001 yields 99.9 units, not the claimed 9.99 — the stated position is
off by a factor of ten (89.91 away from the actual value). -/
theorem C8_counterexample :
    c8_trader.execute_order c8_buy_signal 100 1 0 =
      Except.ok (c8_after_buy, some c8_buy_trade) ∧
    c8_buy_trade.amount = 999/10 ∧
    (89 : ℚ) < |c8_buy_trade.amount - 9.99| := by
  refine ⟨?_, by norm_num [c8_buy_trade], ?_⟩
  · norm_num [c8_trader, PaperTrader.init, PaperTrader.execute_order,
      PaperTrader.log_trade, PaperTrader.calculate_fee, c8_buy_signal,
      c8_after_buy, c8_buy_trade, reduceCtorEq]
    simp
  · rw [show |c8_buy_trade.amount - 9.99| = (8991/100 : ℚ) by
      norm_num [c8_buy_trade, abs_of_pos]]
    norm_num

/-- C8 (amended): with initial cash 10000, fee rate 0.001 and the whole
balance traded, the BUY at price 100 yields a position of 99.9 units, cash
0 and a fee of 10; the subsequent SELL-all at price 120 yields proceeds
11988, a fee of 11.988, cash 11976.012, an absolute profit of 1976.012 and
a strictly positive percentage return. -/
theorem C8_scenario :
    c8_trader.execute_order c8_buy_signal 100 1 0 =
      Except.ok (c8_after_buy, some c8_buy_trade) ∧
    c8_after_buy.balance = 0 ∧
    c8_after_buy.holdings = 999/10 ∧
    c8_buy_trade.fee = 10 ∧
    c8_after_buy.execute_order c8_sell_signal 120 1 1 =
      Except.ok (c8_after_sell, some c8_sell_trade) ∧
    c8_after_sell.balance = 11976012/1000 ∧
    c8_sell_trade.fee = 11988/1000 ∧
    (c8_after_sell.get_profit_loss 120).1 = 1976012/1000 ∧
    0 < (c8_after_sell.get_profit_loss 120).2 := by
  refine ⟨?_, by norm_num [c8_after_buy], by norm_num [c8_after_buy],
    by norm_num [c8_buy_trade], ?_, by norm_num [c8_after_sell],
    by norm_num [c8_sell_trade], ?_, ?_⟩
  · norm_num [c8_trader, PaperTrader.init, PaperTrader.execute_order,
      PaperTrader.log_trade, PaperTrader.calculate_fee, c8_buy_signal,
      c8_after_buy, c8_buy_trade, reduceCtorEq]
    simp
  · norm_num [c8_after_buy, PaperTrader.execute_order,
      PaperTrader.log_trade, PaperTrader.calculate_fee, c8_sell_signal,
      c8_after_sell, c8_sell_trade, c8_buy_trade, reduceCtorEq]
    simp
  · norm_num [c8_after_sell, PaperTrader.get_profit_loss,
      PaperTrader.get_portfolio_value]
  · norm_num [c8_after_sell, PaperTrader.get_profit_loss,
      PaperTrader.get_portfolio_value]

/-! ## Claim C9 — HOLD is logged without state change -/

/-- C9: for every trader state, price, valid trade percentage and wall
clock, a HOLD signal appends exactly one HOLD record with zero amount and
zero fee (carrying the unchanged balance and holdings), returns no trade,
and leaves every field but the history untouched. -/
theorem C9_hold_logged (pt : PaperTrader) (signal : TradeSignal)
    (price pct : ℚ) (now : Nat)
    (h0 : 0 ≤ pct) (h1 : pct ≤ 1) (hact : signal.action = Action.HOLD) :
    pt.execute_order signal price pct now =
      Except.ok ({ pt with trade_history := pt.trade_history ++
        [{ timestamp := now, action := Action.HOLD, price := price,
           amount := 0, fee := 0, balance_after := pt.balance,
           holdings_after := pt.holdings, reason := signal.reason }] },
        none) := by
  simp [PaperTrader.execute_order, PaperTrader.log_trade, hact, h0, h1]

def c9_trader : PaperTrader := PaperTrader.init 1000 0.001 10

/-- Concrete instantiation of `C9_hold_logged`. -/
theorem C9_witness :
    c9_trader.execute_order
        { action := Action.HOLD, confidence := 0.5, reason := some "steady" }
        50 0.3 7 =
      Except.ok ({ c9_trader with trade_history := c9_trader.trade_history ++
        [{ timestamp := 7, action := Action.HOLD, price := 50, amount := 0,
           fee := 0, balance_after := c9_trader.balance,
           holdings_after := c9_trader.holdings,
           reason := some "steady" }] }, none) :=
  C9_hold_logged c9_trader
    { action := Action.HOLD, confidence := 0.5, reason := some "steady" }
    50 0.3 7 (by norm_num) (by norm_num) rfl


/-! ## Claim C10 — backtester single-position and non-negativity -/

def c10_cfg : BtConfig := { initial_capital := 100, commission_rate := 0 }

def c10_data : List Row := [{ timestamp := 0, close := -1 }]

def c10_strategy : Row → String := fun _ => "BUY"

/-- C10 as stated is false without a positive-price assumption: feeding a
row whose close is `-1` to an always-BUY strategy makes `_execute_buy`
divide by a negative price, leaving a negative `asset_balance`. -/
theorem C10_counterexample :
    ((Backtester.run c10_cfg (Backtester.resetState c10_cfg) 0 c10_data
        c10_strategy).2).asset_balance < 0 := by
  norm_num [Backtester.run, Backtester.resetState, Backtester.step,
    Backtester.execute_buy, c10_cfg, c10_data, c10_strategy, List.foldl]

/-- One loop iteration of `Backtester.run` preserves non-negative cash and
asset balance, given a positive close price and a commission rate in
`[0, 1]`. -/
theorem btstep_nonneg (cfg : BtConfig) (strat : Row → String)
    (st : BtState) (row : Row)
    (hr0 : 0 ≤ cfg.commission_rate) (hr1 : cfg.commission_rate ≤ 1)
    (hc : 0 < row.close)
    (h : 0 ≤ st.cash ∧ 0 ≤ st.asset_balance) :
    0 ≤ (Backtester.step cfg strat st row).cash ∧
      0 ≤ (Backtester.step cfg strat st row).asset_balance := by
  unfold Backtester.step
  dsimp only
  split_ifs with hb hs
  · unfold Backtester.execute_buy
    dsimp only
    split_ifs with havail
    · refine ⟨le_refl 0, ?_⟩
      exact le_of_lt (div_pos havail hc)
    · exact h
  · unfold Backtester.execute_sell
    dsimp only
    refine ⟨?_, le_refl 0⟩
    have heq : st.asset_balance * row.close -
        st.asset_balance * row.close * cfg.commission_rate =
        st.asset_balance * row.close * (1 - cfg.commission_rate) := by ring
    rw [heq]
    exact mul_nonneg (mul_nonneg h.2 (le_of_lt hc)) (by linarith)
  · exact h

/-- Folding the loop over rows with positive closes preserves the
invariant. -/
theorem btfold_nonneg (cfg : BtConfig) (strat : Row → String)
    (rows : List Row) (st : BtState)
    (hr0 : 0 ≤ cfg.commission_rate) (hr1 : cfg.commission_rate ≤ 1)
    (hrows : ∀ r ∈ rows, 0 < r.close)
    (h : 0 ≤ st.cash ∧ 0 ≤ st.asset_balance) :
    0 ≤ (List.foldl (Backtester.step cfg strat) st rows).cash ∧
      0 ≤ (List.foldl (Backtester.step cfg strat) st rows).asset_balance := by
  induction rows generalizing st with
  | nil => exact h
  | cons row rows ih =>
      exact ih _ (fun r hr => hrows r (List.mem_cons_of_mem row hr))
        (btstep_nonneg cfg strat st row hr0 hr1
          (hrows row (List.mem_cons_self row rows)) h)

/-- C10 (amended): during `Backtester.run` a BUY signal is acted on only
with no open position and a SELL only with a LONG position — any other
combination leaves cash, asset balance, position and trade history
untouched (only an equity point is appended) — and, provided every close
price in the data is positive, non-negative initial capital and a
commission rate in `[0, 1]` keep cash and asset balance non-negative at
every step of the run (every prefix of the fold, whose final state is the
state `run` returns). -/
theorem C10_single_position (cfg : BtConfig) (strategy_logic : Row → String)
    (data pre suf : List Row) (st0 : BtState) (clock : Nat)
    (hcap : 0 ≤ cfg.initial_capital)
    (hr0 : 0 ≤ cfg.commission_rate) (hr1 : cfg.commission_rate ≤ 1)
    (hclose : ∀ r ∈ data, 0 < r.close) (hsplit : data = pre ++ suf) :
    (0 ≤ (List.foldl (Backtester.step cfg strategy_logic)
        (Backtester.resetState cfg) pre).cash ∧
      0 ≤ (List.foldl (Backtester.step cfg strategy_logic)
        (Backtester.resetState cfg) pre).asset_balance) ∧
    ((Backtester.run cfg st0 clock data strategy_logic).2 =
      List.foldl (Backtester.step cfg strategy_logic)
        (Backtester.resetState cfg) data) ∧
    (∀ (st : BtState) (row : Row),
      ¬ (strategy_logic row = "BUY" ∧ st.position = false) →
      ¬ (strategy_logic row = "SELL" ∧ st.position = true) →
      (Backtester.step cfg strategy_logic st row).cash = st.cash ∧
      (Backtester.step cfg strategy_logic st row).asset_balance =
        st.asset_balance ∧
      (Backtester.step cfg strategy_logic st row).position = st.position ∧
      (Backtester.step cfg strategy_logic st row).trade_history =
        st.trade_history) := by
  refine ⟨?_, rfl, ?_⟩
  · refine btfold_nonneg cfg strategy_logic pre _ hr0 hr1 ?_ ?_
    · intro r hr
      exact hclose r (hsplit ▸ List.mem_append_left suf hr)
    · exact ⟨hcap, le_refl 0⟩
  · intro st row hnb hns
    unfold Backtester.step
    dsimp only
    rw [if_neg hnb, if_neg hns]
    exact ⟨rfl, rfl, rfl, rfl⟩

/-- Concrete instantiation of `C10_single_position`: one positive-price
row under an always-BUY strategy. -/
theorem C10_witness :
    ((0 : ℚ) ≤ (List.foldl
        (Backtester.step ⟨100, 0.001⟩ (fun _ => "BUY"))
        (Backtester.resetState ⟨100, 0.001⟩)
        [{ timestamp := 0, close := 10 }]).cash ∧
      (0 : ℚ) ≤ (List.foldl
        (Backtester.step ⟨100, 0.001⟩ (fun _ => "BUY"))
        (Backtester.resetState ⟨100, 0.001⟩)
        [{ timestamp := 0, close := 10 }]).asset_balance) :=
  (C10_single_position ⟨100, 0.001⟩ (fun _ => "BUY")
    [{ timestamp := 0, close := 10 }] [{ timestamp := 0, close := 10 }] []
    (Backtester.resetState ⟨100, 0.001⟩) 0
    (by norm_num) (by norm_num) (by norm_num)
    (by intro r hr; simp at hr; rw [hr]; norm_num)
    (by simp)).1

end RLdC
